import Mathlib

/-!
Shallow embedding of the naive_poc music-metadata store
(`src/internal_api/mod.rs`, `src/internal_api/wal.rs`, `src/macros/src/lib.rs`).

Modelling conventions:
* Rust machine integers become `Nat` (the behaviour under study never
  exercises overflow), `Vec` becomes `List`, `Option` stays `Option`,
  `HashMap` becomes an association `List`, `Ustr` and `String` become
  `String`, and fallible calls return `Except`.
* The external crates `safe_mix` (whose `triplet_mix` is the 128-bit
  token-chaining mixer), `rustc_stable_hash` (whose SipHash-128 backs
  `get_hash`), and the `serde_json` serializer used by `NaiveLogStore`
  are not part of this repository.  The development is therefore
  parametric over them: an `Env` record carries those functions, so
  every theorem quantified over `Env` holds for the real crate
  functions in particular.
* A `LogStore` (`wal.rs`) appends an entry exactly when `record`
  returns `Ok`, as `NaiveLogStore` does.  Each mutating operation takes
  a `walOk : Except String Unit` argument, the outcome of its single
  `wal.record` call; on `Except.ok` the entry is appended to the
  state's `log`, on `Except.error e` the call returns
  `InternalErr.Other e` (the `From<String>` conversion used by `?`).
* The `RwLock`s in `States` serialize each call; the embedding gives
  the resulting sequential semantics of one call at a time.
-/

deriving instance DecidableEq for Except

/-- 128-bit value `Hash128(pub u128)` from `common.rs`, modelled as `Nat`. -/
abbrev Hash128 := Nat

/-- `UserId(pub usize)`. -/
structure UserId where
  val : Nat
deriving DecidableEq

/-- `ArtistId(usize)`. -/
structure ArtistId where
  val : Nat
deriving DecidableEq

/-- `ReleaseId(usize)`. -/
structure ReleaseId where
  val : Nat
deriving DecidableEq

/-- `TagId(usize)`. -/
structure TagId where
  val : Nat
deriving DecidableEq

/-- `EventId(usize)`. -/
structure EventId where
  val : Nat
deriving DecidableEq

/-- `LocalId(pub Ustr)`. -/
structure LocalId where
  val : String
deriving DecidableEq

/-- `LocationId(pub Ustr)`. -/
structure LocationId where
  val : String
deriving DecidableEq

/-- `FileId(pub usize)`. -/
structure FileId where
  val : Nat
deriving DecidableEq

/-- `TrackNum { disc_num: u16, track_num: u16 }`. -/
structure TrackNum where
  disc_num : Nat
  track_num : Nat
deriving DecidableEq

/-- `TrackRef { release_id, track_num }`. -/
structure TrackRef where
  release_id : ReleaseId
  track_num : TrackNum
deriving DecidableEq

/-- `enum ArtistKind`. -/
inductive ArtistKind where
  | Solo
  | Group
deriving DecidableEq

/-- `enum ArtistRole`. -/
inductive ArtistRole where
  | Arranger
  | Vocal
  | Lyricist
  | Other (s : String)
deriving DecidableEq

/-- `enum SongRelationKind`. -/
inductive SongRelationKind where
  | Cover
  | Rearrangement
  | Remix
  | ReRelease
  | Other (s : String)
deriving DecidableEq

/-- `enum ReleaseKind`. -/
inductive ReleaseKind where
  | Album
  | Ep
  | Single
  | Compilation
  | Demo
  | Other
deriving DecidableEq

/-- `StringWithLocal { local: LocalId, content: String }` (`common.rs`);
the Rust field `local` is a Lean keyword, rendered `localId`. -/
structure StringWithLocal where
  localId : LocalId
  content : String
deriving DecidableEq

/-- `enum DatePrecision`. -/
inductive DatePrecision where
  | Year
  | Month
  | Day
deriving DecidableEq

/-- `DateWithPrecision { year, month, day: u16, precision }`. -/
structure DateWithPrecision where
  year : Nat
  month : Nat
  day : Nat
  precision : DatePrecision
deriving DecidableEq

/-- `Birthday { month, day: u16 }`. -/
structure Birthday where
  month : Nat
  day : Nat
deriving DecidableEq

/-- `type LocalizedDocuments = HashMap<LocalId, FileId>`. -/
abbrev LocalizedDocuments := List (LocalId × FileId)

/-- `type LocalizedStrings = HashMap<LocalId, String>`. -/
abbrev LocalizedStrings := List (LocalId × String)

/-- `Image { id: FileId, descriptions: LocalizedStrings }`. -/
structure Image where
  id : FileId
  descriptions : LocalizedStrings
deriving DecidableEq

/-- `Url { url: String, archived: Option<String> }`. -/
structure Url where
  url : String
  archived : Option String
deriving DecidableEq

/-- `ArtistMembership` (`mod.rs`). -/
structure ArtistMembership where
  group_id : ArtistId
  role : ArtistRole
  start_date : Option DateWithPrecision
  end_date : Option DateWithPrecision
deriving DecidableEq

/-- `struct ArtistMetaData` (`mod.rs`), all fifteen fields.  The fields
from `seq_id` down carry `#[skip_diff]` in the source. -/
structure ArtistMetaData where
  name : String
  aliases : List StringWithLocal
  kind : Option ArtistKind
  start_loc : Option LocationId
  current_loc : Option LocationId
  start_date : Option DateWithPrecision
  end_date : Option DateWithPrecision
  birthday : Option Birthday
  birthyear : Option Nat
  urls : List Url
  seq_id : Hash128
  profile_image : Option Image
  memberships : List ArtistMembership
  tags : List TagId
  descriptions : LocalizedDocuments
deriving DecidableEq

/-- `Default` for `ArtistMetaData` as the Rust derive produces it:
empty string, empty collections, `None` options, zero hash. -/
def ArtistMetaData.default : ArtistMetaData :=
  ⟨"", [], none, none, none, none, none, none, none, [], 0, none, [], [], []⟩

instance : Inhabited ArtistMetaData := ⟨ArtistMetaData.default⟩

/-- `struct Song` (`mod.rs`). -/
structure Song where
  title : String
  artists : List ArtistId
  credits : List (ArtistId × ArtistRole)
  language : List LocalId
  originals : List (TrackRef × SongRelationKind)
  duration_s : Option Nat
  tags : List TagId
  localized_titles : LocalizedStrings
  lyrics : LocalizedDocuments
deriving DecidableEq

/-- `struct Release` (`mod.rs`), all sixteen fields.  The fields from
`seq_id` down carry `#[skip_diff]` in the source. -/
structure Release where
  title : String
  release_kind : Option ReleaseKind
  catalog_num : Option String
  album_artists : List ArtistId
  cover_art : Option Image
  credits : List (ArtistId × ArtistRole)
  disc_names : List String
  event : Option EventId
  release_date : Option DateWithPrecision
  urls : List Url
  seq_id : Hash128
  localized_titles : LocalizedStrings
  tracks : List (TrackNum × Song)
  tags : List TagId
  images : List Image
  descriptions : LocalizedDocuments
deriving DecidableEq

/-- `Default` for `Release` as the Rust derive produces it. -/
def Release.default : Release :=
  ⟨"", none, none, [], none, [], [], none, none, [], 0, [], [], [], [], []⟩

instance : Inhabited Release := ⟨Release.default⟩

/-- `struct Event` (`mod.rs`).  The fields from `seq_id` down carry
`#[skip_diff]` in the source. -/
structure Event where
  name : String
  location : Option LocationId
  address : String
  start_date : Option DateWithPrecision
  end_date : Option DateWithPrecision
  urls : List Url
  seq_id : Hash128
  localized_names : LocalizedStrings
  descriptions : LocalizedDocuments
deriving DecidableEq

/-- `Default` for `Event` as the Rust derive produces it. -/
def Event.default : Event :=
  ⟨"", none, "", none, none, [], 0, [], []⟩

instance : Inhabited Event := ⟨Event.default⟩

/-- `enum InternalErr` (`mod.rs`). -/
inductive InternalErr where
  | InvalidArtistId (id : ArtistId)
  | InvalidEventId (id : EventId)
  | InvalidLocalId (id : LocalId)
  | InvalidTagId (id : TagId)
  | InvalidReleaseId (id : ReleaseId)
  | InvalidTrackRef (r : TrackRef)
  | Poisoned
  | OutdatedUpdate
  | InvalidRelation
  | Other (s : String)
deriving DecidableEq

/-! ## The `DiffFields` derive (`src/macros/src/lib.rs`)

The derive walks the struct's named fields.  A field is dropped from the
generated diff enum when `attrs.iter().find(..).is_some()` fires, and the
closure returns `p.is_ident("skip_diff")` for a `Meta::Path` attribute
but `true` for every `Meta::List` or `Meta::NameValue` attribute.  The
variant names are the field names in UpperCamelCase (crate `heck`).

`#[skip_serializing_none]` (crate `serde_with`) is an attribute macro
written above the derive, so it rewrites the struct first, attaching
`#[serde(skip_serializing_if = "Option::is_none")]` — a `Meta::List`
attribute — to every `Option`-typed field before `DiffFields` runs.
-/

/-- One field attribute as `syn::Meta` classifies it: a bare path such as
`#[skip_diff]`, or anything else (`Meta::List` like `#[serde(..)]`,
`Meta::NameValue` like a doc comment). -/
inductive MetaAttr where
  | path (name : String)
  | other (name : String)
deriving DecidableEq

/-- A named struct field with its attribute list, as the derive sees it. -/
structure FieldDecl where
  name : String
  attrs : List MetaAttr
deriving DecidableEq

/-- The derive's skip test: the `find(..).is_some()` from
`derive_diffs`, whose closure answers `p.is_ident("skip_diff")` on a
path attribute and `true` on any other attribute. -/
def skip_field (f : FieldDecl) : Bool :=
  f.attrs.any fun a =>
    match a with
    | .path p => p == "skip_diff"
    | .other _ => true

/-- Split a character list at underscores (structural helper for
`to_upper_camel_case`). -/
def split_snake (cs : List Char) : List (List Char) :=
  match cs with
  | [] => [[]]
  | c :: rest =>
    let r := split_snake rest
    if c = '_' then [] :: r
    else
      match r with
      | [] => [[c]]
      | w :: ws => (c :: w) :: ws

/-- `heck::ToUpperCamelCase` restricted to the ASCII snake_case
identifiers occurring in this crate: split on underscores and
capitalize the first letter of each word. -/
def to_upper_camel_case (s : String) : String :=
  String.mk
    (((split_snake s.data).map fun w =>
      match w with
      | [] => []
      | c :: cs => c.toUpper :: cs).foldl (fun acc w => acc ++ w) [])

/-- The list of variant names of the diff enum that `derive_diffs`
generates for a struct with the given fields. -/
def derive_diffs_variants (fields : List FieldDecl) : List String :=
  (fields.filter fun f => !skip_field f).map fun f => to_upper_camel_case f.name

/-- The named fields of `ArtistMetaData` exactly as the `DiffFields`
derive receives them: `#[skip_serializing_none]` has already attached a
`#[serde(skip_serializing_if = "Option::is_none")]` list attribute to
every `Option`-typed field, and the managed fields carry
`#[skip_diff]`. -/
def artistMetaDataFields : List FieldDecl :=
  [⟨"name", []⟩,
   ⟨"aliases", []⟩,
   ⟨"kind", [.other "serde"]⟩,
   ⟨"start_loc", [.other "serde"]⟩,
   ⟨"current_loc", [.other "serde"]⟩,
   ⟨"start_date", [.other "serde"]⟩,
   ⟨"end_date", [.other "serde"]⟩,
   ⟨"birthday", [.other "serde"]⟩,
   ⟨"birthyear", [.other "serde"]⟩,
   ⟨"urls", []⟩,
   ⟨"seq_id", [.path "skip_diff"]⟩,
   ⟨"profile_image", [.path "skip_diff", .other "serde"]⟩,
   ⟨"memberships", [.path "skip_diff"]⟩,
   ⟨"tags", [.path "skip_diff"]⟩,
   ⟨"descriptions", [.path "skip_diff"]⟩]

/-- The fields of `ArtistMetaData` that do NOT carry `#[skip_diff]` —
the diffable set the specification describes. -/
def artistMetaDataNonSkipDiffFields : List String :=
  (artistMetaDataFields.filter fun f =>
    !(f.attrs.any fun a =>
      match a with
      | .path p => p == "skip_diff"
      | .other _ => false)).map (·.name)

/-- `ArtistMetaDataDiff` as `derive_diffs` actually generates it for
`ArtistMetaData`: only the attribute-free non-`skip_diff` fields
(`name`, `aliases`, `urls`) survive the derive's skip test, because the
`Option`-typed fields carry the serde attribute injected by
`#[skip_serializing_none]`. -/
inductive ArtistMetaDataDiff where
  | Name (v : String)
  | Aliases (v : List StringWithLocal)
  | Urls (v : List Url)
deriving DecidableEq

/-- `apply_artist_meta_data_diff` as generated: one match arm per
variant, `obj.field = v`. -/
def apply_artist_meta_data_diff (obj : ArtistMetaData) (diff : ArtistMetaDataDiff) :
    ArtistMetaData :=
  match diff with
  | .Name v => { obj with name := v }
  | .Aliases v => { obj with aliases := v }
  | .Urls v => { obj with urls := v }

/-! ## The state store (`mod.rs`) -/

/-- External collaborators of the store, not code of this repository:
`triplet_mix a b` models `safe_mix::triplet_mix(&[a.0, b.0]).unwrap()`
(a deterministic 128-bit mixing function), `get_hash` models the
SipHash-128 content hasher of `hashes.rs` on an `ArtistMetaDataDiff`,
and the `ser_*` functions model `serde_json::to_string` inside
`NaiveLogStore::record`.  Theorems quantify over `Env`, so they hold
for the real functions in particular. -/
structure Env where
  triplet_mix : Hash128 → Hash128 → Hash128
  get_hash : ArtistMetaDataDiff → Hash128
  ser_artist : ArtistMetaData → String
  ser_release : Release → String
  ser_event : Event → String
  ser_artist_diff : ArtistMetaDataDiff → String

/-- One audit-log entry of `NaiveLogStore`: `(UserId, String, String)`. -/
abbrev LogEntry := UserId × String × String

/-- `struct States` (`mod.rs`): the three entity tables and the derived
indices (`HashMap`s modelled as association lists), plus the vector
inside the `NaiveLogStore` the store's `wal` reference points to. -/
structure States where
  artists : List ArtistMetaData
  releases : List Release
  events : List Event
  group_members : List (ArtistId × List ArtistId)
  artist_discography : List (ArtistId × List TrackRef)
  derived_songs : List (TrackRef × List (TrackRef × SongRelationKind))
  log : List LogEntry
deriving DecidableEq

/-- `States::artist_add`: build the record (name supplied, `seq_id`
zero, rest defaulted), log it, then push it; on log failure nothing is
pushed and the error propagates through `From<String>` as `Other`. -/
def artist_add (env : Env) (walOk : Except String Unit) (s : States)
    (user : UserId) (name : String) : Except InternalErr ArtistId × States :=
  let artist : ArtistMetaData := { ArtistMetaData.default with name := name, seq_id := 0 }
  match walOk with
  | .error e => (.error (.Other e), s)
  | .ok () =>
    let artists := s.artists ++ [artist]
    (.ok ⟨artists.length - 1⟩,
     { s with artists := artists,
              log := s.log ++ [(user, "artist_add", env.ser_artist artist)] })

/-- `States::release_add`, same shape as `artist_add`. -/
def release_add (env : Env) (walOk : Except String Unit) (s : States)
    (user : UserId) (title : String) : Except InternalErr ReleaseId × States :=
  let release : Release := { Release.default with title := title, seq_id := 0 }
  match walOk with
  | .error e => (.error (.Other e), s)
  | .ok () =>
    let releases := s.releases ++ [release]
    (.ok ⟨releases.length - 1⟩,
     { s with releases := releases,
              log := s.log ++ [(user, "release_add", env.ser_release release)] })

/-- `States::event_add`, same shape as `artist_add`. -/
def event_add (env : Env) (walOk : Except String Unit) (s : States)
    (user : UserId) (name : String) : Except InternalErr EventId × States :=
  let event : Event := { Event.default with name := name, seq_id := 0 }
  match walOk with
  | .error e => (.error (.Other e), s)
  | .ok () =>
    let events := s.events ++ [event]
    (.ok ⟨events.length - 1⟩,
     { s with events := events,
              log := s.log ++ [(user, "event_add", env.ser_event event)] })

/-- `States::artist_metadata_update`, mirrored statement by statement:
hash the diff; bounds-check the id; check `artist.seq_id != seq_id`;
if `update_seq_id`, assign `seq_id = triplet_mix([seq_id, hash])` and
write it into the record — BEFORE the `wal.record` call; then log
(propagating failure via `?` after the `seq_id` write has already
happened); then apply the diff and return the (possibly updated)
`seq_id`. -/
def artist_metadata_update (env : Env) (walOk : Except String Unit) (s : States)
    (user : UserId) (id : ArtistId) (diff : ArtistMetaDataDiff)
    (seq_id : Hash128) (update_seq_id : Bool) :
    Except InternalErr Hash128 × States :=
  let hash := env.get_hash diff
  if h : id.val < s.artists.length then
    let artist := s.artists[id.val]
    if artist.seq_id ≠ seq_id then
      (.error .OutdatedUpdate, s)
    else
      let seq_id1 := if update_seq_id then env.triplet_mix seq_id hash else seq_id
      let artist1 := if update_seq_id then { artist with seq_id := seq_id1 } else artist
      match walOk with
      | .error e =>
        (.error (.Other e), { s with artists := s.artists.set id.val artist1 })
      | .ok () =>
        let artist2 := apply_artist_meta_data_diff artist1 diff
        (.ok seq_id1,
         { s with artists := s.artists.set id.val artist2,
                  log := s.log ++ [(user, "artist_metadata_update", env.ser_artist_diff diff)] })
  else
    (.error (.InvalidArtistId id), s)

/-! ## Operation sequences -/

/-- One call into the store's public mutating surface, together with
the outcome of its `wal.record` call. -/
inductive Op where
  | artistAdd (walOk : Except String Unit) (user : UserId) (name : String)
  | releaseAdd (walOk : Except String Unit) (user : UserId) (title : String)
  | eventAdd (walOk : Except String Unit) (user : UserId) (name : String)
  | artistUpdate (walOk : Except String Unit) (user : UserId) (id : ArtistId)
      (diff : ArtistMetaDataDiff) (seq : Hash128) (upd : Bool)

/-- The state after one call (the store serializes calls through its
locks; `step` is the sequential semantics of one call). -/
def step (env : Env) (s : States) (op : Op) : States :=
  match op with
  | .artistAdd walOk user name => (artist_add env walOk s user name).2
  | .releaseAdd walOk user title => (release_add env walOk s user title).2
  | .eventAdd walOk user name => (event_add env walOk s user name).2
  | .artistUpdate walOk user id diff seq upd =>
      (artist_metadata_update env walOk s user id diff seq upd).2

/-- The state after a sequence of calls. -/
def run (env : Env) (s : States) (ops : List Op) : States :=
  ops.foldl (step env) s

/-- A run of N sequentially accepted artist updates: each call presents
the record's then-current token, logs successfully, and passes
`update_seq_id = true`. -/
def run_accepted (env : Env) (user : UserId) (id : ArtistId)
    (s : States) (ds : List ArtistMetaDataDiff) : States :=
  ds.foldl
    (fun s d =>
      (artist_metadata_update env (.ok ()) s user id d
        ((s.artists.getD id.val ArtistMetaData.default).seq_id) true).2)
    s

/-- The token the specification predicts after the diffs `ds` are
accepted starting from token `t`: the left fold of `chain` over their
hashes. -/
def chain_fold (env : Env) (t : Hash128) (ds : List ArtistMetaDataDiff) : Hash128 :=
  ds.foldl (fun a d => env.triplet_mix a (env.get_hash d)) t

/-- A concrete instantiation of the external collaborators, used to
evaluate the store on concrete inputs: a simple injective-enough mixer
and a constant hash (the store's control flow never inspects either). -/
def testEnv : Env where
  triplet_mix := fun a b => a + b + 1
  get_hash := fun _ => 5
  ser_artist := fun _ => "artist"
  ser_release := fun _ => "release"
  ser_event := fun _ => "event"
  ser_artist_diff := fun _ => "diff"

/-- An empty store. -/
def emptyStates : States := ⟨[], [], [], [], [], [], []⟩

/-- A store holding exactly one, freshly added, default artist named
"Aiko" with token zero. -/
def oneArtistStates : States :=
  { emptyStates with
      artists := [{ ArtistMetaData.default with name := "Aiko", seq_id := 0 }] }

/-! ## Characterization lemmas for `artist_metadata_update` -/

/-- An out-of-bounds id is rejected with no state change. -/
theorem artist_update_invalid_eq (env : Env) (walOk : Except String Unit) (s : States)
    (user : UserId) (id : ArtistId) (diff : ArtistMetaDataDiff)
    (seq : Hash128) (upd : Bool) (h : s.artists.length ≤ id.val) :
    artist_metadata_update env walOk s user id diff seq upd =
      (.error (.InvalidArtistId id), s) := by
  simp only [artist_metadata_update]
  rw [dif_neg (by omega)]

/-- A stale token is rejected with no state change. -/
theorem artist_update_stale_eq (env : Env) (walOk : Except String Unit) (s : States)
    (user : UserId) (id : ArtistId) (diff : ArtistMetaDataDiff)
    (seq : Hash128) (upd : Bool) (h : id.val < s.artists.length)
    (hs : s.artists[id.val].seq_id ≠ seq) :
    artist_metadata_update env walOk s user id diff seq upd =
      (.error .OutdatedUpdate, s) := by
  simp only [artist_metadata_update]
  rw [dif_pos h, if_pos hs]

/-- The record written back by an accepted update before the diff is
applied: token rewritten when `update_seq_id` is set. -/
def updated_record (env : Env) (s : States) (id : ArtistId)
    (diff : ArtistMetaDataDiff) (seq : Hash128) (upd : Bool)
    (h : id.val < s.artists.length) : ArtistMetaData :=
  if upd then { s.artists[id.val] with seq_id := env.triplet_mix seq (env.get_hash diff) }
  else s.artists[id.val]

/-- A matching token with a successful log call commits: diff applied
on top of the (possibly) re-stamped record, entry appended. -/
theorem artist_update_ok_eq (env : Env) (s : States)
    (user : UserId) (id : ArtistId) (diff : ArtistMetaDataDiff)
    (seq : Hash128) (upd : Bool) (h : id.val < s.artists.length)
    (hs : s.artists[id.val].seq_id = seq) :
    artist_metadata_update env (.ok ()) s user id diff seq upd =
      (.ok (if upd then env.triplet_mix seq (env.get_hash diff) else seq),
       { s with
          artists := s.artists.set id.val
            (apply_artist_meta_data_diff (updated_record env s id diff seq upd h) diff),
          log := s.log ++ [(user, "artist_metadata_update", env.ser_artist_diff diff)] }) := by
  simp only [artist_metadata_update, updated_record]
  rw [dif_pos h, if_neg (by simp [hs])]
  cases upd <;> rfl

/-- A matching token with a failing log call returns the logging error,
appends nothing, but has already written the re-stamped record back. -/
theorem artist_update_logfail_eq (env : Env) (e : String) (s : States)
    (user : UserId) (id : ArtistId) (diff : ArtistMetaDataDiff)
    (seq : Hash128) (upd : Bool) (h : id.val < s.artists.length)
    (hs : s.artists[id.val].seq_id = seq) :
    artist_metadata_update env (.error e) s user id diff seq upd =
      (.error (.Other e),
       { s with artists := s.artists.set id.val (updated_record env s id diff seq upd h) }) := by
  simp only [artist_metadata_update, updated_record]
  rw [dif_pos h, if_neg (by simp [hs])]
  cases upd <;> rfl

/-- `apply_artist_meta_data_diff` never touches `seq_id`. -/
theorem apply_artist_diff_seq_id (r : ArtistMetaData) (d : ArtistMetaDataDiff) :
    (apply_artist_meta_data_diff r d).seq_id = r.seq_id := by
  cases d <;> rfl

/-- The update call never changes the table's length. -/
theorem artist_update_length (env : Env) (walOk : Except String Unit) (s : States)
    (user : UserId) (id : ArtistId) (diff : ArtistMetaDataDiff)
    (seq : Hash128) (upd : Bool) :
    (artist_metadata_update env walOk s user id diff seq upd).2.artists.length
      = s.artists.length := by
  by_cases h : id.val < s.artists.length
  · by_cases hs : s.artists[id.val].seq_id = seq
    · cases walOk with
      | error e => rw [artist_update_logfail_eq env e s user id diff seq upd h hs]; simp
      | ok u => cases u; rw [artist_update_ok_eq env s user id diff seq upd h hs]; simp
    · rw [artist_update_stale_eq env walOk s user id diff seq upd h hs]
  · rw [artist_update_invalid_eq env walOk s user id diff seq upd (by omega)]

/-- The token stored at the target index after an update whose presented
token matches, for both log outcomes: rewritten exactly when
`update_seq_id` is set. -/
theorem artist_update_token_at (env : Env) (walOk : Except String Unit) (s : States)
    (user : UserId) (id : ArtistId) (diff : ArtistMetaDataDiff)
    (seq : Hash128) (upd : Bool) (h : id.val < s.artists.length)
    (hs : s.artists[id.val].seq_id = seq) :
    ((artist_metadata_update env walOk s user id diff seq upd).2.artists[id.val]?).map (·.seq_id) =
      some (if upd then env.triplet_mix seq (env.get_hash diff) else seq) := by
  cases walOk with
  | error e =>
    rw [artist_update_logfail_eq env e s user id diff seq upd h hs]
    simp only [List.getElem?_set, if_pos rfl, if_pos h, Option.map_some, updated_record]
    cases upd <;> simp [hs]
  | ok u =>
    cases u
    rw [artist_update_ok_eq env s user id diff seq upd h hs]
    simp only [List.getElem?_set, if_pos rfl, if_pos h, Option.map_some,
      apply_artist_diff_seq_id, updated_record]
    cases upd <;> simp [hs, apply_artist_diff_seq_id]

/-- An update leaves every other index of the artists table untouched. -/
theorem artist_update_frame_other (env : Env) (walOk : Except String Unit) (s : States)
    (user : UserId) (id : ArtistId) (diff : ArtistMetaDataDiff)
    (seq : Hash128) (upd : Bool) (j : Nat) (hj : id.val ≠ j) :
    (artist_metadata_update env walOk s user id diff seq upd).2.artists[j]? = s.artists[j]? := by
  by_cases h : id.val < s.artists.length
  · by_cases hs : s.artists[id.val].seq_id = seq
    · cases walOk with
      | error e =>
        rw [artist_update_logfail_eq env e s user id diff seq upd h hs]
        simp [List.getElem?_set, hj]
      | ok u =>
        cases u
        rw [artist_update_ok_eq env s user id diff seq upd h hs]
        simp [List.getElem?_set, hj]
    · rw [artist_update_stale_eq env walOk s user id diff seq upd h hs]
  · rw [artist_update_invalid_eq env walOk s user id diff seq upd (by omega)]

/-! ## The claims -/

/-- C5: an update call on a valid id whose presented token differs from
the record's current token returns `OutdatedUpdate` and leaves the
whole store — the target record, every other record, and the audit
log — exactly as it was before the call. -/
theorem stale_update_rejected_unchanged
    (env : Env) (walOk : Except String Unit) (s : States) (user : UserId)
    (id : ArtistId) (diff : ArtistMetaDataDiff) (seq : Hash128) (upd : Bool)
    (h : id.val < s.artists.length)
    (hs : s.artists[id.val].seq_id ≠ seq) :
    artist_metadata_update env walOk s user id diff seq upd =
      (.error .OutdatedUpdate, s) :=
  artist_update_stale_eq env walOk s user id diff seq upd h hs

/-- Witness for C5: repeating an update of the one-artist store with
the stale token 7 is rejected and the store is unchanged. -/
theorem stale_update_rejected_unchanged_witness :
    artist_metadata_update testEnv (.ok ()) oneArtistStates ⟨1⟩ ⟨0⟩
      (.Name "Aiko Minami") 7 true = (.error .OutdatedUpdate, oneArtistStates) :=
  stale_update_rejected_unchanged testEnv (.ok ()) oneArtistStates ⟨1⟩ ⟨0⟩
    (.Name "Aiko Minami") 7 true (by decide) (by decide)

/-- C6: an update with an id at or beyond the table length returns
`InvalidArtistId` with the store (records and log) unchanged, and an
update with an in-bounds id is never rejected as an invalid id. -/
theorem invalid_id_rejected
    (env : Env) (walOk : Except String Unit) (s : States) (user : UserId)
    (id : ArtistId) (diff : ArtistMetaDataDiff) (seq : Hash128) (upd : Bool) :
    (s.artists.length ≤ id.val →
      artist_metadata_update env walOk s user id diff seq upd =
        (.error (.InvalidArtistId id), s))
    ∧ (id.val < s.artists.length →
      ∀ j : ArtistId,
        (artist_metadata_update env walOk s user id diff seq upd).1 ≠
          .error (.InvalidArtistId j)) := by
  constructor
  · exact fun h => artist_update_invalid_eq env walOk s user id diff seq upd h
  · intro h j
    by_cases hs : s.artists[id.val].seq_id = seq
    · cases walOk with
      | error e =>
        rw [artist_update_logfail_eq env e s user id diff seq upd h hs]
        simp
      | ok u =>
        cases u
        rw [artist_update_ok_eq env s user id diff seq upd h hs]
        simp
    · rw [artist_update_stale_eq env walOk s user id diff seq upd h hs]
      simp

/-- Witness for C6: id 999 on the one-artist store is rejected as
invalid with no state change, and id 0 is not rejected as invalid. -/
theorem invalid_id_rejected_witness :
    artist_metadata_update testEnv (.ok ()) oneArtistStates ⟨1⟩ ⟨999⟩ (.Name "x") 0 true =
      (.error (.InvalidArtistId ⟨999⟩), oneArtistStates)
    ∧ (artist_metadata_update testEnv (.ok ()) oneArtistStates ⟨1⟩ ⟨0⟩ (.Name "x") 0 true).1 ≠
        .error (.InvalidArtistId ⟨0⟩) :=
  ⟨(invalid_id_rejected testEnv (.ok ()) oneArtistStates ⟨1⟩ ⟨999⟩ (.Name "x") 0 true).1
      (by decide),
   (invalid_id_rejected testEnv (.ok ()) oneArtistStates ⟨1⟩ ⟨0⟩ (.Name "x") 0 true).2
      (by decide) ⟨0⟩⟩

/-- C7: each generated diff variant overwrites exactly its own field —
the variant's payload lands in that field, the other two diffable
fields keep their values, and the twelve remaining fields are
untouched by every variant.  `apply_artist_meta_data_diff` is total by
construction: it matches on every variant and performs no validation. -/
theorem apply_artist_meta_data_diff_frame (r : ArtistMetaData) :
    (∀ v, (apply_artist_meta_data_diff r (.Name v)).name = v
        ∧ (apply_artist_meta_data_diff r (.Name v)).aliases = r.aliases
        ∧ (apply_artist_meta_data_diff r (.Name v)).urls = r.urls)
    ∧ (∀ v, (apply_artist_meta_data_diff r (.Aliases v)).aliases = v
        ∧ (apply_artist_meta_data_diff r (.Aliases v)).name = r.name
        ∧ (apply_artist_meta_data_diff r (.Aliases v)).urls = r.urls)
    ∧ (∀ v, (apply_artist_meta_data_diff r (.Urls v)).urls = v
        ∧ (apply_artist_meta_data_diff r (.Urls v)).name = r.name
        ∧ (apply_artist_meta_data_diff r (.Urls v)).aliases = r.aliases)
    ∧ (∀ d, (apply_artist_meta_data_diff r d).kind = r.kind
        ∧ (apply_artist_meta_data_diff r d).start_loc = r.start_loc
        ∧ (apply_artist_meta_data_diff r d).current_loc = r.current_loc
        ∧ (apply_artist_meta_data_diff r d).start_date = r.start_date
        ∧ (apply_artist_meta_data_diff r d).end_date = r.end_date
        ∧ (apply_artist_meta_data_diff r d).birthday = r.birthday
        ∧ (apply_artist_meta_data_diff r d).birthyear = r.birthyear
        ∧ (apply_artist_meta_data_diff r d).seq_id = r.seq_id
        ∧ (apply_artist_meta_data_diff r d).profile_image = r.profile_image
        ∧ (apply_artist_meta_data_diff r d).memberships = r.memberships
        ∧ (apply_artist_meta_data_diff r d).tags = r.tags
        ∧ (apply_artist_meta_data_diff r d).descriptions = r.descriptions) := by
  refine ⟨fun v => ⟨rfl, rfl, rfl⟩, fun v => ⟨rfl, rfl, rfl⟩, fun v => ⟨rfl, rfl, rfl⟩,
    fun d => ?_⟩
  cases d <;> exact ⟨rfl, rfl, rfl, rfl, rfl, rfl, rfl, rfl, rfl, rfl, rfl, rfl⟩

/-- C8: each add operation on a table of n records returns id n,
appends exactly one record carrying the supplied seed string and a
zero version token with every other field defaulted, and leaves the
existing records (and the other tables) unchanged. -/
theorem add_returns_fresh_index
    (env : Env) (s : States) (user : UserId) (name title ename : String) :
    (artist_add env (.ok ()) s user name).1 = .ok ⟨s.artists.length⟩
    ∧ (artist_add env (.ok ()) s user name).2.artists =
        s.artists ++ [{ ArtistMetaData.default with name := name, seq_id := 0 }]
    ∧ (artist_add env (.ok ()) s user name).2.releases = s.releases
    ∧ (artist_add env (.ok ()) s user name).2.events = s.events
    ∧ (release_add env (.ok ()) s user title).1 = .ok ⟨s.releases.length⟩
    ∧ (release_add env (.ok ()) s user title).2.releases =
        s.releases ++ [{ Release.default with title := title, seq_id := 0 }]
    ∧ (release_add env (.ok ()) s user title).2.artists = s.artists
    ∧ (event_add env (.ok ()) s user ename).1 = .ok ⟨s.events.length⟩
    ∧ (event_add env (.ok ()) s user ename).2.events =
        s.events ++ [{ Event.default with name := ename, seq_id := 0 }]
    ∧ (event_add env (.ok ()) s user ename).2.artists = s.artists := by
  refine ⟨?_, rfl, rfl, rfl, ?_, rfl, rfl, ?_, rfl, rfl⟩ <;>
    simp [artist_add, release_add, event_add]

/-- C9: with a matching token and successful logging, the
`update_seq_id` flag decides whether the token advances: when false
the diff is applied but the stored and returned token both stay at the
presented value; when true the call returns and stores the chained
token. -/
theorem update_seq_id_flag_behaviour
    (env : Env) (s : States) (user : UserId) (id : ArtistId)
    (diff : ArtistMetaDataDiff) (seq : Hash128)
    (h : id.val < s.artists.length)
    (hs : s.artists[id.val].seq_id = seq) :
    (artist_metadata_update env (.ok ()) s user id diff seq false).1 = .ok seq
    ∧ (artist_metadata_update env (.ok ()) s user id diff seq false).2.artists =
        s.artists.set id.val (apply_artist_meta_data_diff s.artists[id.val] diff)
    ∧ (((artist_metadata_update env (.ok ()) s user id diff seq false).2.artists[id.val]?).map
        (·.seq_id)) = some seq
    ∧ (artist_metadata_update env (.ok ()) s user id diff seq true).1 =
        .ok (env.triplet_mix seq (env.get_hash diff))
    ∧ (((artist_metadata_update env (.ok ()) s user id diff seq true).2.artists[id.val]?).map
        (·.seq_id)) = some (env.triplet_mix seq (env.get_hash diff)) := by
  refine ⟨?_, ?_, ?_, ?_, ?_⟩
  · rw [artist_update_ok_eq env s user id diff seq false h hs]; simp
  · rw [artist_update_ok_eq env s user id diff seq false h hs]; simp [updated_record]
  · rw [artist_update_token_at env (.ok ()) s user id diff seq false h hs]; simp
  · rw [artist_update_ok_eq env s user id diff seq true h hs]; simp
  · rw [artist_update_token_at env (.ok ()) s user id diff seq true h hs]; simp

/-- Witness for C9 on the one-artist store with the test environment. -/
theorem update_seq_id_flag_behaviour_witness :
    (artist_metadata_update testEnv (.ok ()) oneArtistStates ⟨1⟩ ⟨0⟩ (.Name "x") 0 false).1 =
      .ok 0
    ∧ (((artist_metadata_update testEnv (.ok ()) oneArtistStates ⟨1⟩ ⟨0⟩
        (.Name "x") 0 false).2.artists[0]?).map (·.seq_id)) = some 0
    ∧ (artist_metadata_update testEnv (.ok ()) oneArtistStates ⟨1⟩ ⟨0⟩ (.Name "x") 0 true).1 =
        .ok 6 := by
  have h := update_seq_id_flag_behaviour testEnv oneArtistStates ⟨1⟩ ⟨0⟩ (.Name "x") 0
    (by decide) (by decide)
  exact ⟨h.1, h.2.2.1, h.2.2.2.1.trans (by decide)⟩

/-- C1 (evaluated at a failing-log input): the call reports the logging
error and writes no log entry, yet the target record's token has
already been rewritten from 0 to `chain(0, hash(diff))` — the mutation
is observable although logging failed. -/
theorem logfail_update_still_mutates_token :
    (artist_metadata_update testEnv (.error "disk full") oneArtistStates ⟨1⟩ ⟨0⟩
        (.Name "Aiko Minami") 0 true).1 = .error (.Other "disk full")
    ∧ (((artist_metadata_update testEnv (.error "disk full") oneArtistStates ⟨1⟩ ⟨0⟩
        (.Name "Aiko Minami") 0 true).2.artists[0]?).map (·.seq_id)) = some 6
    ∧ ((oneArtistStates.artists[0]?).map (·.seq_id)) = some 0
    ∧ (artist_metadata_update testEnv (.error "disk full") oneArtistStates ⟨1⟩ ⟨0⟩
        (.Name "Aiko Minami") 0 true).2.log = [] := by decide

/-- C3 (evaluated on the fields of `ArtistMetaData`): the derive
generates variants only for `name`, `aliases` and `urls`, although ten
fields lack `#[skip_diff]`; in particular `kind` has no variant. -/
theorem artist_diff_variants_generated :
    derive_diffs_variants artistMetaDataFields = ["Name", "Aliases", "Urls"]
    ∧ artistMetaDataNonSkipDiffFields =
        ["name", "aliases", "kind", "start_loc", "current_loc", "start_date",
         "end_date", "birthday", "birthyear", "urls"]
    ∧ to_upper_camel_case "kind" ∉ derive_diffs_variants artistMetaDataFields := by
  decide

/-- C2 counterexample: an accepted, successful update (presented token
0, returned `Ok`) after which the record's token still equals the
presented token — not a new, different token. -/
theorem accepted_update_token_unchanged_cex :
    (artist_metadata_update testEnv (.ok ()) oneArtistStates ⟨1⟩ ⟨0⟩ (.Name "x") 0 false).1 =
      .ok 0
    ∧ (((artist_metadata_update testEnv (.ok ()) oneArtistStates ⟨1⟩ ⟨0⟩
        (.Name "x") 0 false).2.artists[0]?).map (·.seq_id)) =
      ((oneArtistStates.artists[0]?).map (·.seq_id)) := by decide

/-- C4 counterexample: starting from a record with token zero, one
update presenting the then-current token 0 succeeds, yet the token
afterwards is 0 and not `chain(0, hash(diff))` (= 6 here), because the
call passed `update_seq_id = false` and the chaining branch never ran. -/
theorem accepted_run_not_chained_cex :
    (artist_metadata_update testEnv (.ok ()) oneArtistStates ⟨1⟩ ⟨0⟩ (.Name "x")
        ((oneArtistStates.artists[0]?.map (·.seq_id)).getD 1) false).1 = .ok 0
    ∧ (((artist_metadata_update testEnv (.ok ()) oneArtistStates ⟨1⟩ ⟨0⟩ (.Name "x")
        ((oneArtistStates.artists[0]?.map (·.seq_id)).getD 1) false).2.artists[0]?).map
        (·.seq_id)) = some 0
    ∧ chain_fold testEnv 0 [.Name "x"] = 6
    ∧ (0 : Hash128) ≠ 6 := by decide

/-- C2 (amended, per call): during any single store call, the token of
the record at index `i` is reassigned only if the call is an update
addressed to `i` presenting the record's current token with
`update_seq_id = true`; such a call (whatever its log outcome) stores
`chain(current, hash(diff))`, and the matching call with
`update_seq_id = false` leaves the token unchanged even though it is
accepted. -/
theorem token_change_iff_accepted_update
    (env : Env) (s : States) (op : Op) (i : Nat) (hi : i < s.artists.length) :
    ((((step env s op).artists[i]?).map (·.seq_id) ≠ some s.artists[i].seq_id) →
      ∃ walOk user diff, op = .artistUpdate walOk user ⟨i⟩ diff s.artists[i].seq_id true)
    ∧ (∀ walOk user diff,
        op = .artistUpdate walOk user ⟨i⟩ diff s.artists[i].seq_id true →
        ((step env s op).artists[i]?).map (·.seq_id) =
          some (env.triplet_mix s.artists[i].seq_id (env.get_hash diff)))
    ∧ (∀ walOk user diff,
        op = .artistUpdate walOk user ⟨i⟩ diff s.artists[i].seq_id false →
        ((step env s op).artists[i]?).map (·.seq_id) = some s.artists[i].seq_id) := by
  cases op with
  | artistAdd walOk user name =>
    have hunch : ((step env s (.artistAdd walOk user name)).artists[i]?) = s.artists[i]? := by
      cases walOk with
      | error e => rfl
      | ok u => cases u; simp [step, artist_add, List.getElem?_append, hi]
    refine ⟨fun hne => absurd ?_ hne, ?_, ?_⟩
    · rw [hunch, List.getElem?_eq_getElem hi]
      rfl
    · intro walOk' user' diff' hop
      cases hop
    · intro walOk' user' diff' hop
      cases hop
  | releaseAdd walOk user title =>
    have hunch : ((step env s (.releaseAdd walOk user title)).artists[i]?) = s.artists[i]? := by
      cases walOk with
      | error e => rfl
      | ok u => cases u; rfl
    refine ⟨fun hne => absurd ?_ hne, ?_, ?_⟩
    · rw [hunch, List.getElem?_eq_getElem hi]
      rfl
    · intro walOk' user' diff' hop
      cases hop
    · intro walOk' user' diff' hop
      cases hop
  | eventAdd walOk user name =>
    have hunch : ((step env s (.eventAdd walOk user name)).artists[i]?) = s.artists[i]? := by
      cases walOk with
      | error e => rfl
      | ok u => cases u; rfl
    refine ⟨fun hne => absurd ?_ hne, ?_, ?_⟩
    · rw [hunch, List.getElem?_eq_getElem hi]
      rfl
    · intro walOk' user' diff' hop
      cases hop
    · intro walOk' user' diff' hop
      cases hop
  | artistUpdate walOk user id diff seq upd =>
    obtain ⟨idv⟩ := id
    by_cases hid : idv = i
    · subst hid
      by_cases hs : s.artists[idv].seq_id = seq
      · cases upd with
        | true =>
          refine ⟨fun _ => ⟨walOk, user, diff, by rw [hs]⟩, ?_, ?_⟩
          · intro walOk' user' diff' hop
            injection hop with hw hu hid2 hd hseq
            subst hd
            rw [← hseq]
            have ht := artist_update_token_at env walOk s user ⟨idv⟩ diff seq true hi hs
            simpa [step] using ht
          · intro walOk' user' diff' hop
            injection hop with hw hu hid2 hd hseq hupd
            exact absurd hupd (by decide)
        | false =>
          have ht := artist_update_token_at env walOk s user ⟨idv⟩ diff seq false hi hs
          refine ⟨fun hne => absurd ?_ hne, ?_, ?_⟩
          · simpa [step, hs] using ht
          · intro walOk' user' diff' hop
            injection hop with hw hu hid2 hd hseq hupd
            exact absurd hupd (by decide)
          · intro walOk' user' diff' hop
            injection hop with hw hu hid2 hd hseq
            subst hd
            rw [← hseq]
            simpa [step] using ht
      · have hstale : step env s (.artistUpdate walOk user ⟨idv⟩ diff seq upd) = s := by
          simp only [step]
          rw [artist_update_stale_eq env walOk s user ⟨idv⟩ diff seq upd hi hs]
        refine ⟨fun hne => absurd ?_ hne, ?_, ?_⟩
        · rw [hstale, List.getElem?_eq_getElem hi]
          rfl
        · intro walOk' user' diff' hop
          injection hop with hw hu hid2 hd hseq
          exact absurd hseq.symm hs
        · intro walOk' user' diff' hop
          injection hop with hw hu hid2 hd hseq
          exact absurd hseq.symm hs
    · have hunch := artist_update_frame_other env walOk s user ⟨idv⟩ diff seq upd i hid
      refine ⟨fun hne => absurd ?_ hne, ?_, ?_⟩
      · rw [show step env s (.artistUpdate walOk user ⟨idv⟩ diff seq upd) =
            (artist_metadata_update env walOk s user ⟨idv⟩ diff seq upd).2 from rfl,
          hunch, List.getElem?_eq_getElem hi]
        rfl
      · intro walOk' user' diff' hop
        injection hop with hw hu hid2 hd hseq
        exact absurd (by injection hid2) hid
      · intro walOk' user' diff' hop
        injection hop with hw hu hid2 hd hseq
        exact absurd (by injection hid2) hid

/-- Witness for C2's amended theorem: the accepted `update_seq_id =
true` call on the fresh one-artist store stores the chained token 6. -/
theorem token_change_iff_accepted_update_witness :
    ((step testEnv oneArtistStates
        (.artistUpdate (.ok ()) ⟨1⟩ ⟨0⟩ (.Name "x") 0 true)).artists[0]?).map (·.seq_id) =
      some 6 := by
  have h := (token_change_iff_accepted_update testEnv oneArtistStates
    (.artistUpdate (.ok ()) ⟨1⟩ ⟨0⟩ (.Name "x") 0 true) 0 (by decide)).2.1
    (.ok ()) ⟨1⟩ (.Name "x") rfl
  exact h.trans (by decide)

/-- C4 (amended): after N sequentially accepted updates that each
present the record's then-current token with `update_seq_id = true`
and log successfully, the record's token is the left fold of the
chaining function over the diff hashes, started from the token the
record had before the run (zero for a freshly created record). -/
theorem accepted_updates_chain_tokens
    (env : Env) (user : UserId) (id : ArtistId) (ds : List ArtistMetaDataDiff)
    (s : States) (h : id.val < s.artists.length) :
    (run_accepted env user id s ds).artists.length = s.artists.length
    ∧ ((run_accepted env user id s ds).artists[id.val]?).map (·.seq_id) =
        some (chain_fold env (s.artists[id.val].seq_id) ds) := by
  induction ds generalizing s with
  | nil =>
    refine ⟨rfl, ?_⟩
    show (s.artists[id.val]?).map (·.seq_id) = some (chain_fold env s.artists[id.val].seq_id [])
    rw [List.getElem?_eq_getElem h]
    rfl
  | cons d ds ih =>
    have hgd : s.artists.getD id.val ArtistMetaData.default = s.artists[id.val] := by
      rw [List.getD_eq_getElem?_getD, List.getElem?_eq_getElem h]
      rfl
    have hseq : s.artists[id.val].seq_id =
        (s.artists.getD id.val ArtistMetaData.default).seq_id := by rw [hgd]
    have hrun : run_accepted env user id s (d :: ds) =
        run_accepted env user id
          ((artist_metadata_update env (.ok ()) s user id d
            ((s.artists.getD id.val ArtistMetaData.default).seq_id) true).2) ds := rfl
    set s1 := (artist_metadata_update env (.ok ()) s user id d
      ((s.artists.getD id.val ArtistMetaData.default).seq_id) true).2 with hs1
    have hlen1 : s1.artists.length = s.artists.length :=
      artist_update_length env (.ok ()) s user id d _ true
    have h1 : id.val < s1.artists.length := by rw [hlen1]; exact h
    have htok : (s1.artists[id.val]?).map (·.seq_id) =
        some (env.triplet_mix (s.artists[id.val].seq_id) (env.get_hash d)) := by
      rw [hs1]
      have ht := artist_update_token_at env (.ok ()) s user id d
        ((s.artists.getD id.val ArtistMetaData.default).seq_id) true h hseq
      simpa [List.getD_eq_getElem?_getD, List.getElem?_eq_getElem h] using ht
    have htok' : s1.artists[id.val].seq_id =
        env.triplet_mix (s.artists[id.val].seq_id) (env.get_hash d) := by
      have ht := htok
      rw [List.getElem?_eq_getElem h1] at ht
      simpa using ht
    obtain ⟨ihl, iht⟩ := ih s1 h1
    refine ⟨?_, ?_⟩
    · rw [hrun, ihl, hlen1]
    · rw [hrun, iht, htok']
      rfl

/-- Witness for C4's amended theorem: two accepted chained updates on
the fresh one-artist store yield token chain(chain(0,5),5) = 12. -/
theorem accepted_updates_chain_tokens_witness :
    ((run_accepted testEnv ⟨1⟩ ⟨0⟩ oneArtistStates
        [.Name "a", .Name "b"]).artists[0]?).map (·.seq_id) = some 12 := by
  have h := (accepted_updates_chain_tokens testEnv ⟨1⟩ ⟨0⟩ [.Name "a", .Name "b"]
    oneArtistStates (by decide)).2
  exact h.trans (by decide)
